import Mathlib

/-!
Verification of the LoungeCalendar core: the feed aggregator
(`pages/api/public-calendar.ts`) and the timetable grid builder
(`components/TimetableCalendar.tsx`, with the variant component kept in the
repository as a second source file).

Modelling conventions.

* An absolute instant is a `Nat`: minutes since 0000-03-01T00:00 UTC
  (proleptic Gregorian).  The repository stores instants as ISO-8601 UTC
  strings produced by `Date.prototype.toISOString` and re-parses them with
  `new Date(string)`; at minute precision that serialization is a bijection
  between instants and strings, so the model carries the instant itself in
  the `dateTime` field.
* The ECMAScript `Date` civil-calendar conversions (`getFullYear`,
  `getMonth`, `getDate`, `getHours`, `getMinutes`, and the `MakeDay`
  normalization used by the `new Date(year, month, day)` constructor) are
  modelled by the standard proleptic-Gregorian day/civil conversion
  (Hinnant's algorithm), valid for every instant at or after
  0000-03-01T00:00 UTC, which covers the whole range this application uses.
  Months are 1-based in the model; the source's 0-based `getMonth` values
  only ever occur in equalities between two values of the same convention,
  so the translation is faithful.
* `Date.prototype.getHours`/`getMinutes`/`getDate` depend on the JavaScript
  runtime's local timezone.  The runtime environment is made explicit as an
  offset parameter `off : Nat`, minutes east of UTC (the zones relevant to
  this repository, UTC+0 .. UTC+14, have non-negative offsets; Japan has no
  daylight saving time, so a fixed offset per environment is exact).
* The API handler is a pure function of the two configured feed locators
  and a fetch oracle; it returns the list of network actions it performs
  together with the HTTP response, so "no network access" is expressible.
  `Promise.all` starts both fetches and fails with the cause of a failing
  branch; when both branches fail the rejection that wins the race is the
  first one here, which is one of the admissible outcomes.
-/

/-- A calendar date as rendered by `Date.getFullYear/getMonth/getDate`
(month 1-based in the model). -/
structure CivilDate where
  year : Nat
  month : Nat
  day : Nat
deriving DecidableEq

/-- A calendar date and wall-clock time, the fields JavaScript's `Date`
accessors expose for an instant rendered in some timezone. -/
structure CivilDateTime where
  year : Nat
  month : Nat
  day : Nat
  hour : Nat
  minute : Nat
deriving DecidableEq

/-- Day of the 400-year Gregorian era containing day `z`
(days since 0000-03-01). -/
def doeOf (z : Nat) : Nat := z % 146097

/-- Year of the era (0..399) containing day `z` (Hinnant's algorithm). -/
def yoeOf (z : Nat) : Nat :=
  (doeOf z - doeOf z / 1460 + doeOf z / 36524 - doeOf z / 146096) / 365

/-- Day of the (March-based) year containing day `z`. -/
def doyOf (z : Nat) : Nat :=
  doeOf z - (365 * yoeOf z + yoeOf z / 4 - yoeOf z / 100)

/-- March-based month index (0 = March .. 11 = February) of day `z`. -/
def mpOf (z : Nat) : Nat := (5 * doyOf z + 2) / 153

/-- Civil month (1..12) of day `z`. -/
def monthOf (z : Nat) : Nat := if mpOf z < 10 then mpOf z + 3 else mpOf z - 9

/-- Civil day-of-month (1..31) of day `z`. -/
def dayOf (z : Nat) : Nat := doyOf z - (153 * mpOf z + 2) / 5 + 1

/-- Civil year of day `z`. -/
def yearOf (z : Nat) : Nat :=
  z / 146097 * 400 + yoeOf z + (if monthOf z ≤ 2 then 1 else 0)

/-- Civil date of day number `z` (days since 0000-03-01), the conversion
performed by ECMAScript's `YearFromTime`/`MonthFromTime`/`DateFromTime`. -/
def civilFromDays (z : Nat) : CivilDate := ⟨yearOf z, monthOf z, dayOf z⟩

/-- Year shifted down by one for January/February (Hinnant's algorithm). -/
def yearAdj (y m : Nat) : Nat := if m ≤ 2 then y - 1 else y

/-- Day of the March-based year of civil (month, day). -/
def doyFromCivil (m d : Nat) : Nat :=
  (153 * (if 2 < m then m - 3 else m + 9) + 2) / 5 + d - 1

/-- Day number (days since 0000-03-01) of a civil date, the conversion
performed by ECMAScript's `MakeDay`. -/
def daysFromCivil (y m d : Nat) : Nat :=
  yearAdj y m / 400 * 146097
    + (yearAdj y m % 400 * 365 + yearAdj y m % 400 / 4
        - yearAdj y m % 400 / 100 + doyFromCivil m d)

/-- The civil fields of an instant `t` (minutes since 0000-03-01T00:00 UTC)
rendered in UTC. -/
def civilOfMinutes (t : Nat) : CivilDateTime :=
  ⟨yearOf (t / 1440), monthOf (t / 1440), dayOf (t / 1440),
    t % 1440 / 60, t % 1440 % 60⟩

/-- The instant (minutes since 0000-03-01T00:00 UTC) of a UTC civil
date-time; used to write down concrete instants. -/
def minutesOfCivil (y m d hh mm : Nat) : Nat :=
  daysFromCivil y m d * 1440 + hh * 60 + mm

/-- The civil fields `Date.getFullYear/getMonth/getDate/getHours/getMinutes`
return for instant `t` in a runtime whose local timezone is `off` minutes
east of UTC. -/
def localView (off t : Nat) : CivilDateTime := civilOfMinutes (t + off)

/-- Modelled from the spec: interpretation of an instant "in its own
embedded timezone representation" — the stored timezone label is always
`Asia/Tokyo` (UTC+9, offset 540 minutes), so this renders the instant at
offset 540. -/
def tokyoView (t : Nat) : CivilDateTime := localView 540 t

/-- The closed two-valued origin tag (`source: 'calendar1' | 'calendar2'`). -/
inductive CalSource
  | calendar1
  | calendar2
deriving DecidableEq

/-- The `{ dateTime, timeZone }` pair stored in a normalized event
(`dateTime` carries the instant, see the header on serialization). -/
structure DateTimeTZ where
  dateTime : Nat
  timeZone : String
deriving DecidableEq

/-- The optional `{ displayName }` location object. -/
structure EventLocation where
  displayName : String
deriving DecidableEq

/-- The canonical normalized event (`CalendarEvent` in both source files). -/
structure CalendarEvent where
  id : String
  subject : String
  start : DateTimeTZ
  «end» : DateTimeTZ
  location : Option EventLocation
  description : Option String
  source : CalSource
deriving DecidableEq

/-- A raw feed entry as delivered by the `node-ical` collaborator
(`ICalEvent` in `pages/api/public-calendar.ts`): `start`/`end` are
JavaScript `Date`s, i.e. instants. -/
structure ICalEvent where
  type : String
  uid : String
  summary : String
  start : Nat
  «end» : Nat
  location : Option String
  description : Option String
deriving DecidableEq

/-- The per-entry mapping inside `formatEvents`: the `.map` body.  The
location field mirrors the truthiness test `event.location ? ... :
undefined` (an empty string is falsy in JavaScript). -/
def formatEvent (event : ICalEvent) (source : CalSource) : CalendarEvent :=
  { id := event.uid
    subject := event.summary
    start := { dateTime := event.start, timeZone := "Asia/Tokyo" }
    «end» := { dateTime := event.«end», timeZone := "Asia/Tokyo" }
    location := match event.location with
      | some l => if l = "" then none else some { displayName := l }
      | none => none
    description := event.description
    source := source }

/-- `formatEvents` from `pages/api/public-calendar.ts`: keep only `VEVENT`
entries and normalize each, tagging it with its source calendar. -/
def formatEvents (events : List ICalEvent) (source : CalSource) :
    List CalendarEvent :=
  (events.filter (fun event => event.type == "VEVENT")).map
    (fun event => formatEvent event source)

/-- A network action performed by the handler. -/
inductive NetAction
  | fetch (url : String)
deriving DecidableEq

/-- The three response shapes of the API route: 200 with `value`, 400 with
the configuration error message, 500 with the fetch error message and the
underlying cause in `details`. -/
inductive ApiResult
  | ok (value : List CalendarEvent)
  | configError (error : String)
  | fetchError (error : String) (details : String)
deriving DecidableEq

/-- The HTTP status the handler sends with each response shape. -/
def ApiResult.status : ApiResult → Nat
  | .ok _ => 200
  | .configError _ => 400
  | .fetchError _ _ => 500

/-- The API route `handler`: a pure function of the two configured feed
locators and a fetch oracle, returning the performed network actions and
the response.  Mirrors the source: the truthiness test
`!calendar1Url || !calendar2Url` (absent or empty string) short-circuits
with a 400 before any fetch; otherwise `Promise.all` starts both fetches,
and a failing branch makes the `catch` answer 500 with the cause. -/
def handler (calendar1Url calendar2Url : Option String)
    (fetchResult : String → Except String (List ICalEvent)) :
    List NetAction × ApiResult :=
  match calendar1Url, calendar2Url with
  | some u1, some u2 =>
    if u1 = "" ∨ u2 = "" then
      ([], .configError "カレンダーURLが設定されていません")
    else
      ([.fetch u1, .fetch u2],
        match fetchResult u1, fetchResult u2 with
        | .ok events1, .ok events2 =>
            .ok (formatEvents events1 .calendar1
                  ++ formatEvents events2 .calendar2)
        | .error msg, _ => .fetchError "カレンダーの取得に失敗しました" msg
        | _, .error msg => .fetchError "カレンダーの取得に失敗しました" msg)
  | _, _ => ([], .configError "カレンダーURLが設定されていません")

/-- A configured class period (`TimeSlot` in both components). -/
structure TimeSlot where
  name : String
  startHour : Nat
  startMinute : Nat
  endHour : Nat
  endMinute : Nat
deriving DecidableEq

/-- `TIME_SLOTS` from `components/TimetableCalendar.tsx` (six periods). -/
def TIME_SLOTS : List TimeSlot :=
  [⟨"1限", 8, 50, 10, 20⟩,
   ⟨"2限", 10, 30, 12, 0⟩,
   ⟨"昼休み", 12, 0, 13, 0⟩,
   ⟨"3限", 13, 0, 14, 30⟩,
   ⟨"4限", 14, 40, 16, 10⟩,
   ⟨"5限", 16, 20, 17, 50⟩]

/-- `TIME_SLOTS` from the variant component kept as the unnamed source file
(seven periods, adding `6限`). -/
def TIME_SLOTS_v2 : List TimeSlot :=
  [⟨"1限", 8, 50, 10, 20⟩,
   ⟨"2限", 10, 30, 12, 0⟩,
   ⟨"昼休み", 12, 0, 13, 0⟩,
   ⟨"3限", 13, 0, 14, 30⟩,
   ⟨"4限", 14, 40, 16, 10⟩,
   ⟨"5限", 16, 20, 17, 50⟩,
   ⟨"6限", 18, 0, 19, 30⟩]

/-- Last day-of-month shown by `new Date(year, month + 1, 0).getDate()`:
day 0 of the following month, with ECMAScript's `MakeDay` month
normalization (December rolls over to January of the next year).  `m` is
1-based. -/
def lastDateOfMonth (y m : Nat) : Nat :=
  (civilFromDays (daysFromCivil (y + m / 12) (m % 12 + 1) 1 - 1)).day

/-- `getDaysInMonth` from the components: the days 1 .. last day of the
month of the reference date (which enters only through its year and
month). -/
def getDaysInMonth (y m : Nat) : List CivilDate :=
  (List.range (lastDateOfMonth y m)).map (fun d => ⟨y, m, d + 1⟩)

/-- `getEventsForTimeSlot` from the components: filter the fetched events
to those whose start instant, rendered by the runtime's local `Date`
accessors (offset `off`), falls on the given date with hour and minute
equal to the slot's configured start.  The events list and the runtime
offset are the component state and environment, passed explicitly. -/
def getEventsForTimeSlot (off : Nat) (events : List CalendarEvent)
    (date : CivilDate) (timeSlot : TimeSlot) : List CalendarEvent :=
  events.filter (fun event =>
    let eventDate := localView off event.start.dateTime
    eventDate.day == date.day
      && eventDate.month == date.month
      && eventDate.year == date.year
      && eventDate.hour == timeSlot.startHour
      && eventDate.minute == timeSlot.startMinute)

/-- The grid the component renders: for each day of the month, for each
slot in configured order, the cell contents. -/
def buildGrid (off : Nat) (events : List CalendarEvent) (y m : Nat)
    (slots : List TimeSlot) :
    List (CivilDate × List (TimeSlot × List CalendarEvent)) :=
  (getDaysInMonth y m).map (fun day =>
    (day, slots.map (fun slot =>
      (slot, getEventsForTimeSlot off events day slot))))

/-- Modelled from the spec: the Gregorian leap-year rule. -/
def isLeapYear (y : Nat) : Bool :=
  (y % 4 == 0 && y % 100 != 0) || y % 400 == 0

/-- Modelled from the spec: the expected number of days of month `m`
(1-based) of year `y` — 28/29-day Februaries, 30- and 31-day months. -/
def refDaysInMonth (y m : Nat) : Nat :=
  if m = 2 then (if isLeapYear y then 29 else 28)
  else if m = 4 ∨ m = 6 ∨ m = 9 ∨ m = 11 then 30
  else 31

/-! Periodicity of the Gregorian calendar: shifting by one 400-year era
(146097 days) preserves month and day and adds 400 to the year.  Together
with a decidable check of one full era this settles the month-length
computation for every year. -/

theorem doeOf_shift (z : Nat) : doeOf (z + 146097) = doeOf z := by
  simp [doeOf, Nat.add_mod_right]

theorem yoeOf_shift (z : Nat) : yoeOf (z + 146097) = yoeOf z := by
  simp [yoeOf, doeOf_shift]

theorem doyOf_shift (z : Nat) : doyOf (z + 146097) = doyOf z := by
  simp [doyOf, doeOf_shift, yoeOf_shift]

theorem mpOf_shift (z : Nat) : mpOf (z + 146097) = mpOf z := by
  simp [mpOf, doyOf_shift]

theorem monthOf_shift (z : Nat) : monthOf (z + 146097) = monthOf z := by
  simp [monthOf, mpOf_shift]

theorem dayOf_shift (z : Nat) : dayOf (z + 146097) = dayOf z := by
  simp [dayOf, doyOf_shift, mpOf_shift]

theorem yearOf_shift (z : Nat) : yearOf (z + 146097) = yearOf z + 400 := by
  unfold yearOf
  rw [monthOf_shift, yoeOf_shift,
    show (z + 146097) / 146097 = z / 146097 + 1 by omega]
  ring

theorem civilFromDays_shift (z : Nat) :
    civilFromDays (z + 146097) =
      ⟨(civilFromDays z).year + 400, (civilFromDays z).month,
        (civilFromDays z).day⟩ := by
  simp [civilFromDays, yearOf_shift, monthOf_shift, dayOf_shift]

theorem yearAdj_shift (y m : Nat) (hy : 1 ≤ y) :
    yearAdj (y + 400) m = yearAdj y m + 400 := by
  unfold yearAdj; split <;> omega

theorem daysFromCivil_shift (y m d : Nat) (hy : 1 ≤ y) :
    daysFromCivil (y + 400) m d = daysFromCivil y m d + 146097 := by
  unfold daysFromCivil
  rw [yearAdj_shift y m hy]
  omega

theorem daysFromCivil_lb (y m : Nat) (hy : 1 ≤ y) (hm1 : 1 ≤ m) (hm2 : m ≤ 12) :
    1 ≤ daysFromCivil y m 1 := by
  unfold daysFromCivil yearAdj doyFromCivil
  split <;> split <;> omega

theorem isLeapYear_shift (y : Nat) : isLeapYear (y + 400) = isLeapYear y := by
  unfold isLeapYear
  rw [show (y + 400) % 4 = y % 4 by omega, show (y + 400) % 100 = y % 100 by omega,
    show (y + 400) % 400 = y % 400 by omega]

theorem refDaysInMonth_shift (y m : Nat) :
    refDaysInMonth (y + 400) m = refDaysInMonth y m := by
  unfold refDaysInMonth
  rw [isLeapYear_shift]

theorem lastDateOfMonth_shift (y m : Nat) (hy : 1 ≤ y) (hm1 : 1 ≤ m)
    (hm2 : m ≤ 12) : lastDateOfMonth (y + 400) m = lastDateOfMonth y m := by
  unfold lastDateOfMonth
  rw [show y + 400 + m / 12 = (y + m / 12) + 400 by omega,
    daysFromCivil_shift _ _ _ (by omega)]
  have hlb : 1 ≤ daysFromCivil (y + m / 12) (m % 12 + 1) 1 :=
    daysFromCivil_lb _ _ (by omega) (by omega) (by omega)
  rw [show daysFromCivil (y + m / 12) (m % 12 + 1) 1 + 146097 - 1
        = (daysFromCivil (y + m / 12) (m % 12 + 1) 1 - 1) + 146097 by omega,
    civilFromDays_shift]

set_option maxRecDepth 4000

theorem lastDateOfMonth_base :
    ∀ y < 401, ∀ m < 13, 1 ≤ y → 1 ≤ m →
      lastDateOfMonth y m = refDaysInMonth y m := by
  decide

theorem lastDateOfMonth_correct (y : Nat) :
    ∀ m, 1 ≤ y → 1 ≤ m → m ≤ 12 →
      lastDateOfMonth y m = refDaysInMonth y m := by
  induction y using Nat.strong_induction_on with
  | _ y ih =>
    intro m hy hm1 hm2
    by_cases h : y ≤ 400
    · exact lastDateOfMonth_base y (by omega) m (by omega) hy hm1
    · have hsub : 1 ≤ y - 400 := by omega
      have hrw : y = (y - 400) + 400 := by omega
      rw [hrw, lastDateOfMonth_shift _ _ hsub hm1 hm2, refDaysInMonth_shift]
      exact ih (y - 400) (by omega) m hsub hm1 hm2

theorem head_range_map {α : Type} (f : Nat → α) (n : Nat) (hn : 1 ≤ n) :
    ((List.range n).map f).head? = some (f 0) := by
  cases n with
  | zero => omega
  | succ k => rw [List.range_succ_eq_map]; simp

theorem last_range_map {α : Type} (f : Nat → α) (n : Nat) (hn : 1 ≤ n) :
    ((List.range n).map f).getLast? = some (f (n - 1)) := by
  cases n with
  | zero => omega
  | succ k => rw [List.range_succ]; simp

theorem getDaysInMonth_pairwise (y m : Nat) :
    (getDaysInMonth y m).Pairwise (fun a b => a.day < b.day) := by
  unfold getDaysInMonth
  rw [List.pairwise_map]
  exact (List.pairwise_lt_range _).imp (by intro a b h; simpa using h)

theorem getDaysInMonth_nodup (y m : Nat) : (getDaysInMonth y m).Nodup := by
  unfold getDaysInMonth
  refine List.Nodup.map ?_ (List.nodup_range _)
  intro a b h
  simp only [CivilDate.mk.injEq] at h
  omega

theorem timeSlots_start_distinct :
    ∀ s1 ∈ TIME_SLOTS, ∀ s2 ∈ TIME_SLOTS,
      s1.startHour = s2.startHour → s1.startMinute = s2.startMinute →
        s1 = s2 := by
  decide

theorem timeSlots_v2_start_distinct :
    ∀ s1 ∈ TIME_SLOTS_v2, ∀ s2 ∈ TIME_SLOTS_v2,
      s1.startHour = s2.startHour → s1.startMinute = s2.startMinute →
        s1 = s2 := by
  decide

theorem mem_getEventsForTimeSlot {off : Nat} {events : List CalendarEvent}
    {date : CivilDate} {slot : TimeSlot} {e : CalendarEvent} :
    e ∈ getEventsForTimeSlot off events date slot ↔
      e ∈ events ∧ (localView off e.start.dateTime).day = date.day
        ∧ (localView off e.start.dateTime).month = date.month
        ∧ (localView off e.start.dateTime).year = date.year
        ∧ (localView off e.start.dateTime).hour = slot.startHour
        ∧ (localView off e.start.dateTime).minute = slot.startMinute := by
  simp [getEventsForTimeSlot, List.mem_filter, Bool.and_eq_true, beq_iff_eq,
    and_assoc]

theorem cell_unique {off : Nat} {events : List CalendarEvent}
    {e : CalendarEvent} {slots : List TimeSlot}
    (hdist : ∀ s1 ∈ slots, ∀ s2 ∈ slots,
      s1.startHour = s2.startHour → s1.startMinute = s2.startMinute → s1 = s2)
    {d1 d2 : CivilDate} {s1 s2 : TimeSlot}
    (hs1 : s1 ∈ slots) (hs2 : s2 ∈ slots)
    (h1 : e ∈ getEventsForTimeSlot off events d1 s1)
    (h2 : e ∈ getEventsForTimeSlot off events d2 s2) :
    d1 = d2 ∧ s1 = s2 := by
  rw [mem_getEventsForTimeSlot] at h1 h2
  obtain ⟨-, ha1, ha2, ha3, ha4, ha5⟩ := h1
  obtain ⟨-, hb1, hb2, hb3, hb4, hb5⟩ := h2
  refine ⟨?_, hdist s1 hs1 s2 hs2 (by omega) (by omega)⟩
  have hd : d1.day = d2.day := by omega
  have hm : d1.month = d2.month := by omega
  have hy : d1.year = d2.year := by omega
  cases d1; cases d2; simp_all

theorem handler_ok {u1 u2 : String} (h1 : u1 ≠ "") (h2 : u2 ≠ "")
    {fetch : String → Except String (List ICalEvent)} {f1 f2 : List ICalEvent}
    (hf1 : fetch u1 = .ok f1) (hf2 : fetch u2 = .ok f2) :
    handler (some u1) (some u2) fetch =
      ([.fetch u1, .fetch u2],
        .ok (formatEvents f1 .calendar1 ++ formatEvents f2 .calendar2)) := by
  simp only [handler]
  rw [if_neg (fun hc => hc.elim h1 h2), hf1, hf2]

theorem formatEvents_source (f : List ICalEvent) (src : CalSource) :
    ∀ e ∈ formatEvents f src, e.source = src := by
  intro e he
  simp only [formatEvents, List.mem_map] at he
  obtain ⟨r, -, rfl⟩ := he
  rfl

theorem formatEvents_length (f : List ICalEvent) (src : CalSource) :
    (formatEvents f src).length = f.countP (fun r => r.type == "VEVENT") := by
  simp [formatEvents, List.length_map, List.countP_eq_length_filter]

/-- The end-to-end scenario entry: "Meeting", starting 2024-03-05T08:50
Asia/Tokyo (= 2024-03-04T23:50 UTC) and ending 2024-03-05T10:20 Asia/Tokyo
(= 2024-03-05T01:20 UTC). -/
def meetingRaw : ICalEvent :=
  ⟨"VEVENT", "meeting-uid", "Meeting",
    minutesOfCivil 2024 3 4 23 50, minutesOfCivil 2024 3 5 1 20, none, none⟩

/-- Feed A of the end-to-end scenario: exactly the one timed event. -/
def feedA : List ICalEvent := [meetingRaw]

/-- Feed B of the end-to-end scenario: empty. -/
def feedB : List ICalEvent := []

/-- Fetch oracle of the end-to-end scenario: both feeds succeed. -/
def fetchAB : String → Except String (List ICalEvent) :=
  fun u => if u = "urlA" then .ok feedA else .ok feedB

/-- The normalized scenario event. -/
def meetingEvent : CalendarEvent := formatEvent meetingRaw .calendar1

/-- The first configured period, 08:50-10:20. -/
def slot1 : TimeSlot := ⟨"1限", 8, 50, 10, 20⟩

/-- March 5, 2024. -/
def day5 : CivilDate := ⟨2024, 3, 5⟩

/-- An entry starting 2024-03-05T08:50 UTC (17:50 Asia/Tokyo). -/
def utcRaw : ICalEvent :=
  ⟨"VEVENT", "utc-uid", "UTC Meeting",
    minutesOfCivil 2024 3 5 8 50, minutesOfCivil 2024 3 5 10 20, none, none⟩

/-- The normalized UTC-morning event. -/
def utcEvent : CalendarEvent := formatEvent utcRaw .calendar1

/-- A timed entry whose end precedes its start. -/
def badRaw : ICalEvent := ⟨"VEVENT", "bad-uid", "Backwards", 100, 50, none, none⟩

/-- Fetch oracle delivering the backwards entry in feed A. -/
def fetchBad : String → Except String (List ICalEvent) :=
  fun u => if u = "urlA" then .ok [badRaw] else .ok feedB

/-- Fetch oracle whose second feed fails. -/
def fetchFail : String → Except String (List ICalEvent) :=
  fun u => if u = "urlA" then .ok feedA else .error "network down"

/-- A timed entry with every optional field populated. -/
def fullRaw : ICalEvent :=
  ⟨"VEVENT", "full-uid", "Seminar",
    minutesOfCivil 2024 3 5 1 30, minutesOfCivil 2024 3 5 3 0,
    some "Room 601", some "notes"⟩

/-- Claim C1, amended: the cell of a day and a configured slot holds exactly
the events whose start instant, rendered in the JavaScript runtime's local
timezone (for the deployment zone Asia/Tokyo, offset 540, this coincides
with the claim's "embedded timezone representation"), falls on that day
with hour and minute equal to the slot's configured start; a matching event
is in that cell, in no other cell, an event whose rendered (hour, minute)
matches no configured slot is in zero cells, and each cell preserves the
relative order of the aggregator's output sequence. -/
theorem C1_binning_runtime_local (off : Nat) (events : List CalendarEvent)
    (y m : Nat) (day : CivilDate) (slot : TimeSlot)
    (hday : day ∈ getDaysInMonth y m) (hslot : slot ∈ TIME_SLOTS) :
    getEventsForTimeSlot off events day slot =
      events.filter (fun event =>
        (localView off event.start.dateTime).day == day.day
          && (localView off event.start.dateTime).month == day.month
          && (localView off event.start.dateTime).year == day.year
          && (localView off event.start.dateTime).hour == slot.startHour
          && (localView off event.start.dateTime).minute == slot.startMinute)
    ∧ (∀ t, localView 540 t = tokyoView t)
    ∧ List.Sublist (getEventsForTimeSlot off events day slot) events
    ∧ (∀ e day2 slot2, day2 ∈ getDaysInMonth y m → slot2 ∈ TIME_SLOTS →
        e ∈ getEventsForTimeSlot off events day slot →
        e ∈ getEventsForTimeSlot off events day2 slot2 →
        day = day2 ∧ slot = slot2)
    ∧ (∀ e ∈ events,
        (∀ s ∈ TIME_SLOTS,
          ¬((localView off e.start.dateTime).hour = s.startHour ∧
            (localView off e.start.dateTime).minute = s.startMinute)) →
        e ∉ getEventsForTimeSlot off events day slot) := by
  refine ⟨rfl, fun t => rfl, List.filter_sublist _, ?_, ?_⟩
  · intro e day2 slot2 hday2 hslot2 h1 h2
    exact cell_unique timeSlots_start_distinct hslot hslot2 h1 h2
  · intro e he hnone hmem
    rw [mem_getEventsForTimeSlot] at hmem
    exact hnone slot hslot ⟨hmem.2.2.2.2.1, hmem.2.2.2.2.2⟩

/-- Witness for C1: at runtime offset 540 the scenario event occupies the
cell (March 5, first period). -/
theorem C1_witness :
    getEventsForTimeSlot 540 [meetingEvent] day5 slot1 = [meetingEvent] := by
  have h := C1_binning_runtime_local 540 [meetingEvent] 2024 3 day5 slot1
    (by decide) (by decide)
  rw [h.1]
  decide

/-- Counterexample to C1 as stated: the scenario event's start instant,
interpreted in its embedded Asia/Tokyo representation, is 08:50 on March 5,
matching the first configured slot on a day of the grid, yet in a runtime
whose local timezone is UTC (offset 0) the code places it in no cell at
all: the binning reads the runtime's local rendering, not the embedded
representation. -/
theorem C1_counterexample :
    tokyoView meetingEvent.start.dateTime = ⟨2024, 3, 5, 8, 50⟩
    ∧ day5 ∈ getDaysInMonth 2024 3
    ∧ slot1 ∈ TIME_SLOTS
    ∧ slot1.startHour = 8 ∧ slot1.startMinute = 50
    ∧ getEventsForTimeSlot 0 [meetingEvent] day5 slot1 = [] := by
  decide

/-- Claim C2, amended (assuming the JavaScript runtime's local timezone is
Asia/Tokyo, UTC+9): with feed A holding exactly the "Meeting" event
(2024-03-05T08:50 to 10:20 Asia/Tokyo) and feed B empty, the aggregator
returns exactly one event tagged calendar1, and the March 2024 grid places
it in the single cell (day 5, period "1限") and in no other cell of the
31-day grid. -/
theorem C2_end_to_end_tokyo :
    (handler (some "urlA") (some "urlB") fetchAB).2 = .ok [meetingEvent]
    ∧ meetingEvent.source = .calendar1
    ∧ (getDaysInMonth 2024 3).length = 31
    ∧ getEventsForTimeSlot 540 [meetingEvent] day5 slot1 = [meetingEvent]
    ∧ (∀ day ∈ getDaysInMonth 2024 3, ∀ slot ∈ TIME_SLOTS,
        ¬(day = day5 ∧ slot = slot1) →
        getEventsForTimeSlot 540 [meetingEvent] day slot = []) := by
  decide

/-- Counterexample to C2 as stated: in a runtime whose local timezone is
UTC (offset 0) the aggregator still returns the one calendar1 event, but
the March 2024 grid places it in no cell whatsoever, not in (day 5,
period 1). -/
theorem C2_counterexample :
    (handler (some "urlA") (some "urlB") fetchAB).2 = .ok [meetingEvent]
    ∧ tokyoView meetingEvent.start.dateTime = ⟨2024, 3, 5, 8, 50⟩
    ∧ (∀ day ∈ getDaysInMonth 2024 3, ∀ slot ∈ TIME_SLOTS,
        getEventsForTimeSlot 0 [meetingEvent] day slot = []) := by
  decide

/-- Claim C3: for non-empty feed locators whose fetches both succeed, the
aggregator's output is feed A's normalized timed entries (tagged calendar1)
followed by feed B's (tagged calendar2): length is the sum of timed-entry
counts, every event's tag identifies its feed, non-timed entries are
discarded, and the output is the pure concatenation, with no re-sorting or
deduplication. -/
theorem C3_aggregate_concat (u1 u2 : String) (h1 : u1 ≠ "") (h2 : u2 ≠ "")
    (fetch : String → Except String (List ICalEvent)) (f1 f2 : List ICalEvent)
    (hf1 : fetch u1 = .ok f1) (hf2 : fetch u2 = .ok f2) :
    (handler (some u1) (some u2) fetch).2 =
      .ok (formatEvents f1 .calendar1 ++ formatEvents f2 .calendar2)
    ∧ (formatEvents f1 .calendar1 ++ formatEvents f2 .calendar2).length =
        f1.countP (fun r => r.type == "VEVENT")
          + f2.countP (fun r => r.type == "VEVENT")
    ∧ (∀ e ∈ formatEvents f1 .calendar1, e.source = .calendar1)
    ∧ (∀ e ∈ formatEvents f2 .calendar2, e.source = .calendar2)
    ∧ formatEvents f1 .calendar1 =
        (f1.filter (fun r => r.type == "VEVENT")).map
          (fun r => formatEvent r .calendar1)
    ∧ formatEvents f2 .calendar2 =
        (f2.filter (fun r => r.type == "VEVENT")).map
          (fun r => formatEvent r .calendar2) := by
  refine ⟨by rw [handler_ok h1 h2 hf1 hf2], ?_,
    formatEvents_source f1 _, formatEvents_source f2 _, rfl, rfl⟩
  simp [List.length_append, formatEvents_length]

/-- Witness for C3 at the concrete scenario feeds. -/
theorem C3_witness :
    (handler (some "urlA") (some "urlB") fetchAB).2 =
      .ok (formatEvents feedA .calendar1 ++ formatEvents feedB .calendar2) :=
  (C3_aggregate_concat "urlA" "urlB" (by decide) (by decide) fetchAB
    feedA feedB rfl rfl).1

/-- Claim C4: a missing or empty feed locator makes the handler answer the
configuration error, with zero network actions performed and no partial
aggregation. -/
theorem C4_config_error_no_fetch (url1 url2 : Option String)
    (fetch : String → Except String (List ICalEvent))
    (h : url1 = none ∨ url1 = some "" ∨ url2 = none ∨ url2 = some "") :
    handler url1 url2 fetch =
      ([], .configError "カレンダーURLが設定されていません") := by
  rcases h with rfl | rfl | rfl | rfl
  · cases url2 <;> rfl
  · cases url2 with
    | none => rfl
    | some u => simp [handler]
  · cases url1 <;> rfl
  · cases url1 with
    | none => rfl
    | some u => simp [handler]

/-- Witness for C4: both locators absent. -/
theorem C4_witness :
    handler none none fetchAB =
      ([], .configError "カレンダーURLが設定されていません") :=
  C4_config_error_no_fetch none none fetchAB (Or.inl rfl)

/-- Claim C5: if either fetch fails, the whole aggregation answers a single
fetch error whose details are the cause of a failing fetch, and no success
value — in particular no data of the other feed — is exposed. -/
theorem C5_fetch_error_all_or_nothing (u1 u2 : String) (h1 : u1 ≠ "")
    (h2 : u2 ≠ "") (fetch : String → Except String (List ICalEvent))
    (h : (∃ msg, fetch u1 = .error msg) ∨ (∃ msg, fetch u2 = .error msg)) :
    ∃ cause,
      (handler (some u1) (some u2) fetch).2 =
        .fetchError "カレンダーの取得に失敗しました" cause
      ∧ (fetch u1 = .error cause ∨ fetch u2 = .error cause)
      ∧ ∀ value, (handler (some u1) (some u2) fetch).2 ≠ .ok value := by
  simp only [handler]
  rw [if_neg (fun hc => hc.elim h1 h2)]
  cases hfa : fetch u1 with
  | error m1 =>
    cases hfb : fetch u2 with
    | ok e2 => exact ⟨m1, rfl, Or.inl rfl, by intro value hv; cases hv⟩
    | error m2 => exact ⟨m1, rfl, Or.inl rfl, by intro value hv; cases hv⟩
  | ok e1 =>
    cases hfb : fetch u2 with
    | error m2 =>
      exact ⟨m2, rfl, Or.inr rfl, by intro value hv; cases hv⟩
    | ok e2 =>
      exfalso
      rcases h with ⟨msg, hmsg⟩ | ⟨msg, hmsg⟩
      · rw [hfa] at hmsg; cases hmsg
      · rw [hfb] at hmsg; cases hmsg

/-- Witness for C5: the second feed fails with a network error. -/
theorem C5_witness :
    ∃ cause,
      (handler (some "urlA") (some "urlB") fetchFail).2 =
        .fetchError "カレンダーの取得に失敗しました" cause
      ∧ (fetchFail "urlA" = .error cause ∨ fetchFail "urlB" = .error cause)
      ∧ ∀ value,
          (handler (some "urlA") (some "urlB") fetchFail).2 ≠ .ok value :=
  C5_fetch_error_all_or_nothing "urlA" "urlB" (by decide) (by decide)
    fetchFail (Or.inr ⟨"network down", rfl⟩)

/-- Claim C6: for a reference date in year `y` (≥ 1, the model's validity
range), month `m`, the day axis is exactly the days 1 .. N of that month in
ascending order, where N — computed by the source as day 0 of the following
month — equals the reference month-length table for every month and year,
leap years included. -/
theorem C6_day_axis (y m : Nat) (hy : 1 ≤ y) (hm1 : 1 ≤ m) (hm2 : m ≤ 12) :
    getDaysInMonth y m =
      (List.range (refDaysInMonth y m)).map (fun d => ⟨y, m, d + 1⟩)
    ∧ (getDaysInMonth y m).length = refDaysInMonth y m
    ∧ (getDaysInMonth y m).head? = some ⟨y, m, 1⟩
    ∧ (getDaysInMonth y m).getLast? = some ⟨y, m, refDaysInMonth y m⟩
    ∧ (getDaysInMonth y m).Pairwise (fun a b => a.day < b.day)
    ∧ lastDateOfMonth y m = refDaysInMonth y m := by
  have hN : lastDateOfMonth y m = refDaysInMonth y m :=
    lastDateOfMonth_correct y m hy hm1 hm2
  have h1N : 1 ≤ refDaysInMonth y m := by
    unfold refDaysInMonth; split <;> split <;> omega
  have hlist : getDaysInMonth y m =
      (List.range (refDaysInMonth y m)).map (fun d => ⟨y, m, d + 1⟩) := by
    unfold getDaysInMonth; rw [hN]
  refine ⟨hlist, ?_, ?_, ?_, getDaysInMonth_pairwise y m, hN⟩
  · rw [hlist]; simp
  · rw [hlist, head_range_map _ _ h1N]
  · rw [hlist, last_range_map _ _ h1N,
      show refDaysInMonth y m - 1 + 1 = refDaysInMonth y m by omega]

/-- Witness for C6: a 28-day February, a leap-year 29-day February, and a
31-day month. -/
theorem C6_witness :
    (getDaysInMonth 2023 2).length = 28
    ∧ (getDaysInMonth 2024 2).length = 29
    ∧ (getDaysInMonth 2024 3).length = 31 := by
  refine ⟨?_, ?_, ?_⟩
  · rw [(C6_day_axis 2023 2 (by decide) (by decide) (by decide)).2.1]; decide
  · rw [(C6_day_axis 2024 2 (by decide) (by decide) (by decide)).2.1]; decide
  · rw [(C6_day_axis 2024 3 (by decide) (by decide) (by decide)).2.1]; decide

/-- Claim C7: normalization maps the raw unique id to `id`, the summary to
`subject`, the raw instants to `start`/`end` with the timezone label fixed
to "Asia/Tokyo", sets `location.displayName` only when a raw location is
present, passes `description` through verbatim only when present, and
omits missing optional fields instead of defaulting them. -/
theorem C7_normalization (f : List ICalEvent) (src : CalSource)
    (entry : ICalEvent) (hmem : entry ∈ f) (hv : entry.type = "VEVENT") :
    formatEvent entry src ∈ formatEvents f src
    ∧ (formatEvent entry src).id = entry.uid
    ∧ (formatEvent entry src).subject = entry.summary
    ∧ (formatEvent entry src).start.dateTime = entry.start
    ∧ (formatEvent entry src).start.timeZone = "Asia/Tokyo"
    ∧ (formatEvent entry src).«end».dateTime = entry.«end»
    ∧ (formatEvent entry src).«end».timeZone = "Asia/Tokyo"
    ∧ (∀ loc, (formatEvent entry src).location = some loc →
        entry.location = some loc.displayName)
    ∧ (entry.location = none → (formatEvent entry src).location = none)
    ∧ (formatEvent entry src).description = entry.description
    ∧ (formatEvent entry src).source = src := by
  refine ⟨?_, rfl, rfl, rfl, rfl, rfl, rfl, ?_, ?_, rfl, rfl⟩
  · simp only [formatEvents, List.mem_map]
    exact ⟨entry, List.mem_filter.mpr ⟨hmem, by simp [hv]⟩, rfl⟩
  · intro loc hloc
    cases hl : entry.location with
    | none => simp [formatEvent, hl] at hloc
    | some l =>
      by_cases he : l = ""
      · simp [formatEvent, hl, he] at hloc
      · simp only [formatEvent, hl, if_neg he] at hloc
        obtain rfl : EventLocation.mk l = loc := by injection hloc
        rfl
  · intro hnone
    simp [formatEvent, hnone]

/-- Witness for C7 at a fully populated entry. -/
theorem C7_witness :
    formatEvent fullRaw .calendar1 ∈ formatEvents [fullRaw] .calendar1 :=
  (C7_normalization [fullRaw] .calendar1 fullRaw (by decide) rfl).1

/-- Counterexample to C8 as stated: the aggregator happily emits an event
whose start does not precede its end — no well-formedness validation is
performed. -/
theorem C8_counterexample :
    (handler (some "urlA") (some "urlB") fetchBad).2 =
      .ok [formatEvent badRaw .calendar1]
    ∧ ¬(formatEvent badRaw .calendar1).start.dateTime <
        (formatEvent badRaw .calendar1).«end».dateTime := by
  decide

/-- Claim C8, amended: the aggregator does not enforce start < end; every
output event's start precedes its end exactly when every timed entry of the
fetched feeds already satisfies it. -/
theorem C8_start_end_conditional (u1 u2 : String) (h1 : u1 ≠ "") (h2 : u2 ≠ "")
    (fetch : String → Except String (List ICalEvent)) (f1 f2 : List ICalEvent)
    (hf1 : fetch u1 = .ok f1) (hf2 : fetch u2 = .ok f2)
    (hwf : ∀ r ∈ f1 ++ f2, r.type = "VEVENT" → r.start < r.«end») :
    ∀ value, (handler (some u1) (some u2) fetch).2 = .ok value →
      ∀ e ∈ value, e.start.dateTime < e.«end».dateTime := by
  intro value hval e he
  rw [handler_ok h1 h2 hf1 hf2] at hval
  injection hval with hval
  subst hval
  rcases List.mem_append.mp he with hmem | hmem
  · simp only [formatEvents, List.mem_map] at hmem
    obtain ⟨r, hr, rfl⟩ := hmem
    obtain ⟨hrf, hrv⟩ := List.mem_filter.mp hr
    exact hwf r (List.mem_append.mpr (Or.inl hrf)) (by simpa using hrv)
  · simp only [formatEvents, List.mem_map] at hmem
    obtain ⟨r, hr, rfl⟩ := hmem
    obtain ⟨hrf, hrv⟩ := List.mem_filter.mp hr
    exact hwf r (List.mem_append.mpr (Or.inr hrf)) (by simpa using hrv)

/-- Witness for C8 on the well-formed scenario feeds. -/
theorem C8_witness :
    meetingEvent.start.dateTime < meetingEvent.«end».dateTime :=
  C8_start_end_conditional "urlA" "urlB" (by decide) (by decide)
    fetchAB feedA feedB rfl rfl (by decide) _ rfl meetingEvent (by decide)

/-- Claim C9: slot binning never reads an event's stored timeZone label —
membership of an event in a cell depends only on its start instant — and it
renders the instant with the runtime's local accessors: the scenario event,
whose Asia/Tokyo wall-clock start matches the first slot on March 5, is
binned into zero cells when the runtime timezone is UTC (offset 0) and into
the cell (March 5, period 1) at offset 540; conversely an event starting
08:50 UTC matches no slot in its Asia/Tokyo rendering yet is binned into
(March 5, period 1) at offset 0. -/
theorem C9_runtime_timezone_dependence :
    (∀ off (date : CivilDate) (slot : TimeSlot) (e1 e2 : CalendarEvent),
        e1.start.dateTime = e2.start.dateTime →
        (e1 ∈ getEventsForTimeSlot off [e1] date slot ↔
          e2 ∈ getEventsForTimeSlot off [e2] date slot))
    ∧ (∀ (raw : ICalEvent) (src : CalSource),
        (formatEvent raw src).start.dateTime = raw.start)
    ∧ tokyoView meetingEvent.start.dateTime = ⟨2024, 3, 5, 8, 50⟩
    ∧ (∀ day ∈ getDaysInMonth 2024 3, ∀ slot ∈ TIME_SLOTS,
        getEventsForTimeSlot 0 [meetingEvent] day slot = [])
    ∧ getEventsForTimeSlot 540 [meetingEvent] day5 slot1 = [meetingEvent]
    ∧ (∀ slot ∈ TIME_SLOTS,
        ¬((tokyoView utcEvent.start.dateTime).hour = slot.startHour ∧
          (tokyoView utcEvent.start.dateTime).minute = slot.startMinute))
    ∧ getEventsForTimeSlot 0 [utcEvent] day5 slot1 = [utcEvent] := by
  refine ⟨?_, fun raw src => rfl, by decide, by decide, by decide,
    by decide, by decide⟩
  intro off date slot e1 e2 h
  rw [mem_getEventsForTimeSlot, mem_getEventsForTimeSlot, h]
  simp

/-- Claim C10: the configured slots of both components have pairwise
distinct (startHour, startMinute) pairs — even at the 12:00 and 13:00
boundaries where one slot's end equals the next slot's start — the day
axis has pairwise distinct dates, and consequently any single event is
placed in at most one cell of the whole month grid, in every runtime
timezone. -/
theorem C10_at_most_one_cell :
    (∀ s1 ∈ TIME_SLOTS, ∀ s2 ∈ TIME_SLOTS,
        s1.startHour = s2.startHour → s1.startMinute = s2.startMinute →
          s1 = s2)
    ∧ (∀ s1 ∈ TIME_SLOTS_v2, ∀ s2 ∈ TIME_SLOTS_v2,
        s1.startHour = s2.startHour → s1.startMinute = s2.startMinute →
          s1 = s2)
    ∧ (∃ s1 ∈ TIME_SLOTS, ∃ s2 ∈ TIME_SLOTS, s1 ≠ s2
        ∧ s1.endHour = s2.startHour ∧ s1.endMinute = s2.startMinute)
    ∧ (∀ y m, (getDaysInMonth y m).Nodup)
    ∧ (∀ off events (e : CalendarEvent) (y m : Nat) d1 s1 d2 s2,
        d1 ∈ getDaysInMonth y m → d2 ∈ getDaysInMonth y m →
        s1 ∈ TIME_SLOTS → s2 ∈ TIME_SLOTS →
        e ∈ getEventsForTimeSlot off events d1 s1 →
        e ∈ getEventsForTimeSlot off events d2 s2 →
        d1 = d2 ∧ s1 = s2) := by
  refine ⟨timeSlots_start_distinct, timeSlots_v2_start_distinct, by decide,
    getDaysInMonth_nodup, ?_⟩
  intro off events e y m d1 s1 d2 s2 hd1 hd2 hs1 hs2 h1 h2
  exact cell_unique timeSlots_start_distinct hs1 hs2 h1 h2
